import Mathlib

/-!
Shallow embedding of the copula mathematics engine of `src/midr/archimedean.py`
over the real numbers, together with theorems settling the frozen claims.

Modelling conventions, used consistently below:
* numpy floating-point scalars are modelled as real numbers (`ℝ`);
* a numpy computation whose result is NaN (log of a negative number,
  `max` of an empty sequence, a failed optimisation) is modelled as `none`
  in an `Option ℝ` result;
* `np.log 0 = -∞` has no counterpart in `ℝ`.  Wherever the source lets a
  `-∞` log-magnitude flow through `exp` (yielding an exact `0`), the model
  computes the same quantity in natural scale, with a comment at the spot;
* elementwise array operations are modelled on scalars, and row/matrix
  operations take explicit functions `Fin n → Fin d → ℝ`.
-/

open scoped BigOperators
open scoped Classical

noncomputable section

namespace Midr

/-- `np.expm1 x = e^x - 1` (the numpy version is only a better-conditioned
evaluation of the same real number). -/
def expm1 (x : ℝ) : ℝ := Real.exp x - 1

/-- Python's `max` over a nonempty list (`max(u_values[i, :])`).  The empty
list never occurs at the call sites; it is given the junk value `0`. -/
def listMax : List ℝ → ℝ
  | [] => 0
  | x :: xs => xs.foldl max x

/-- One addend of the rescaled sum `np.exp(lx - x_max)` inside `lsum`:
`exp (log x - m)`.  `np.log 0 = -∞` and `exp (-∞ - m) = 0`, which `ℝ`
cannot express through `Real.log`; the zero case is therefore written out. -/
def expShiftLog (m x : ℝ) : ℝ := if x = 0 then 0 else Real.exp (Real.log x - m)

/-- `lsum` («log_sum», archimedean.py lines 24-32):
`x_max + log (Σ exp (log x_i - x_max))` with `x_max = max (log x_i)`.
Since `log` is monotone and `np.log 0 = -∞` never attains the maximum when a
positive entry exists, `x_max = log (max x_i)`.  A negative entry makes
`np.log` return NaN which poisons the result, and an all-nonpositive input
makes the whole computation NaN (or raises on the empty list): all those
cases are `none`. -/
def lsum (l : List ℝ) : Option ℝ :=
  if (∀ x ∈ l, 0 ≤ x) ∧ (∃ x ∈ l, 0 < x) then
    some (Real.log (listMax l) +
      Real.log ((l.map (expShiftLog (Real.log (listMax l)))).sum))
  else none

/-- `lssum` (archimedean.py lines 35-49).  The source sorts
`b_i = log |x_i|`, takes `b_max = max b_i`, then accumulates
`±exp (b_i - b_max)` where the sign is `+` iff `b_i ≥ 0`, and returns
`b_max + log results`.  The sum is permutation-invariant over `ℝ`, so the
sort is dropped; `b_max = log (max |x_i|)` as in `lsum`; an entry `0` has
`b_i = -∞ < 0` and contributes `-exp (-∞ - b_max) = 0`.  `log results` is
NaN for `results < 0` and `-∞` for `results = 0`; neither is a real number
and both are modelled as `none` (only the negative case is ever exercised
below). -/
def lssum (l : List ℝ) : Option ℝ :=
  let m := listMax (l.map (fun v => |v|))
  let results := (l.map (fun v =>
    if v = 0 then 0
    else if 0 ≤ Real.log |v| then Real.exp (Real.log |v| - Real.log m)
    else -Real.exp (Real.log |v| - Real.log m))).sum
  if 0 < m ∧ 0 < results then some (Real.log m + Real.log results) else none

/-- `log1mexp` (archimedean.py lines 52-69): `log (1 - e^{-x})`, with the
source's branch at `log 2` kept. -/
def log1mexp (x : ℝ) : ℝ :=
  if x ≤ Real.log 2 then Real.log (-(expm1 (-x)))
  else Real.log (1 - Real.exp (-x))

/-- `np.logaddexp a b = log (e^a + e^b)`. -/
def logaddexp (a b : ℝ) : ℝ := Real.log (Real.exp a + Real.exp b)

/-- `log1pexp` (archimedean.py lines 72-78): `np.logaddexp 0 x`. -/
def log1pexp (x : ℝ) : ℝ := logaddexp 0 x

/-- `diag_copula` (archimedean.py lines 81-104): per-row maximum. -/
def diagCopula (n d : ℕ) (u : Fin n → Fin d → ℝ) (i : Fin n) : ℝ :=
  listMax (List.ofFn fun j => u i j)

/-- `eulerian` (archimedean.py lines 659-683).  The source fills a dense
`(n+1)×(m+1)` table `dp` with `dp[i][j] = 1` for `i > j = 0`,
`dp[i][j] = (i-j)·dp[i-1][j-1] + (j+1)·dp[i-1][j]` for `0 < j < i`, and `0`
elsewhere (row `0` and all `j ≥ i` are never written).  This structural
recursion computes exactly the table entries. -/
def eulerian : ℕ → ℕ → ℕ
  | 0, _ => 0
  | _ + 1, 0 => 1
  | i + 1, j + 1 =>
    if j + 1 < i + 1 then
      (i + 1 - (j + 1)) * eulerian i j + (j + 2) * eulerian i (j + 1)
    else 0

/-- `eulerian_all` (archimedean.py lines 685-698): the vector
`[eulerian n 0, …, eulerian n (n-1)]` (stored by the source in a float
array; the values are integers and are kept as naturals cast to `ℝ` at
use sites). -/
def eulerianAll (n : ℕ) : List ℕ := (List.range n).map (eulerian n)

/-- `np.polyval` Horner evaluation, highest-degree coefficient first
(archimedean.py lines 700-710). -/
def polyneval (coef : List ℝ) (x : ℝ) : ℝ :=
  coef.foldl (fun acc c => acc * x + c) 0

/-- `polylog` (archimedean.py lines 712-730), for negative-integer order
`s`: with `n = -s` and `P` the Eulerian-row polynomial,
`log (P z) + log z - (n+1)·log (1-z)`; the log-input variant receives
`w = log z` and uses `log1mexp (-w)` instead of `log (1-z)`
(`np.log1p (-z) = log (1-z)` over `ℝ`). -/
def polylog (z : ℝ) (s : ℤ) (isLogZ : Bool) : ℝ :=
  if isLogZ then
    Real.log (polyneval ((eulerianAll (-s).toNat).map (fun c => (c : ℝ)))
        (Real.exp z)) +
      z - ((-s).toNat + 1 : ℝ) * log1mexp (-z)
  else
    Real.log (polyneval ((eulerianAll (-s).toNat).map (fun c => (c : ℝ))) z) +
      Real.log z - ((-s).toNat + 1 : ℝ) * Real.log (1 - z)

/-- `ipsi_clayton` (archimedean.py lines 194-228):
`sign θ · (x^{-θ} - 1)`, logged when `is_log` is set (the log variant takes
the log of the natural-scale value). -/
def ipsiClayton (x θ : ℝ) (isLog : Bool) : ℝ :=
  if isLog then Real.log (Real.sign θ * (x ^ (-θ) - 1))
  else Real.sign θ * (x ^ (-θ) - 1)

/-- `psi_clayton` (archimedean.py lines 231-261):
`max (1 + sign θ · x) 0 ^ (-1/θ)`. -/
def psiClayton (x θ : ℝ) : ℝ := max (1 + Real.sign θ * x) 0 ^ (-1 / θ)

/-- The `sum_seq` constant of `pdf_clayton` for `θ > 0`:
`Σ_{i=1}^{d-1} log (1 + θ·i)` (`np.log1p (θ·i)`). -/
def claytonSumSeq (d : ℕ) (θ : ℝ) : ℝ :=
  ∑ i ∈ Finset.range (d - 1), Real.log (1 + θ * (i + 1))

/-- `pdf_clayton` with `is_log=True` (archimedean.py lines 264-328), per row:
with `t = Σ_j ipsi_clayton (u i j) θ` and `ℓu = Σ_j log (u i j)`,
the source writes `log (1+θ) - (1+θ)·ℓu - (d + 1/θ)·log (1-t)` for `θ < 0`
and `t < 1`, the literal `-∞` for `θ < 0 ≤ t - 1` (hence the `EReal`
codomain, `⊥` being that returned value), the analogous `log1p t` form with
`sum_seq` for `θ > 0`, and `0` for `θ = 0` (where the unused constant
`d + 1/θ` is junk both in numpy and in `ℝ`). -/
def pdfClaytonLog (n d : ℕ) (u : Fin n → Fin d → ℝ) (θ : ℝ) (i : Fin n) :
    EReal :=
  let t := ∑ j, ipsiClayton (u i j) θ false
  let lu := ∑ j, Real.log (u i j)
  if θ < 0 then
    if t < 1 then
      ((Real.log (1 + θ) - (1 + θ) * lu -
        ((d : ℝ) + 1 / θ) * Real.log (1 - t) : ℝ) : EReal)
    else (⊥ : EReal)
  else if 0 < θ then
    ((claytonSumSeq d θ - (1 + θ) * lu -
      ((d : ℝ) + 1 / θ) * Real.log (1 + t) : ℝ) : EReal)
  else (0 : EReal)

/-- `np.exp` applied to a possibly `-∞` log-density: `exp ⊥ = 0`.  (`⊤`
never occurs; it is sent to the junk value `exp 0`.) -/
def expE (x : EReal) : ℝ := if x = ⊥ then 0 else Real.exp x.toReal

/-- `pdf_clayton` with `is_log=False`: the source exponentiates each
log-scale entry in place. -/
def pdfClayton (n d : ℕ) (u : Fin n → Fin d → ℝ) (θ : ℝ) (i : Fin n) : ℝ :=
  expE (pdfClaytonLog n d u θ i)

/-- `diag_pdf_clayton` with `is_log=True` (archimedean.py lines 331-376):
`log d - (1 + 1/θ)·log (1 + (d-1)·(1 - y^θ))` at the row maximum `y`. -/
def diagPdfClaytonLog (n d : ℕ) (u : Fin n → Fin d → ℝ) (θ : ℝ) (i : Fin n) :
    ℝ :=
  Real.log d - (1 + 1 / θ) *
    Real.log (1 + ((d : ℝ) - 1) * (1 - diagCopula n d u i ^ θ))

/-- Outcome of one `scipy.optimize.minimize` call, as seen by this code:
a success flag and the located point.  The optimiser itself is external to
the repository and is modelled as data. -/
structure OptResult where
  success : Bool
  x : ℝ

/-- `max_diag_pdf` (archimedean.py lines 107-133): return the optimiser's
point on success and NaN (here `none`) on failure; nothing is raised. -/
def maxDiagPdf (res : OptResult) : Option ℝ :=
  if res.success then some res.x else none

/-- The constraint list passed by `dmle_copula_clayton` (archimedean.py
lines 160-161): the first entry is the constant function `1e-14` — not
`x - 1e-14`. -/
def claytonConstraints : List (ℝ → ℝ) :=
  [fun _ => 1e-14, fun x => 1000 - x]

/-- The constraint list passed by `dmle_copula_franck` (archimedean.py
lines 189-190). -/
def franckConstraints : List (ℝ → ℝ) :=
  [fun x => x - 1e-14, fun x => 745 - x]

/-- A scipy-style inequality constraint list holds at `θ` when every
constraint function is nonnegative there. -/
def feasibleFor (cs : List (ℝ → ℝ)) (θ : ℝ) : Prop := ∀ c ∈ cs, 0 ≤ c θ

/-- The objective minimised by `max_diag_pdf`:
`θ ↦ -Σ_i diag_pdf (row i) θ (is_log := True)`. -/
def negLogDiagLik (n : ℕ) (diagPdfLog : ℝ → Fin n → ℝ) (θ : ℝ) : ℝ :=
  -∑ i, diagPdfLog θ i

/-- `dmle_copula_clayton` (archimedean.py lines 136-162): minimize the
negative diagonal log-likelihood under `claytonConstraints`, starting at
`0.5`; the abstract optimiser receives exactly those data. -/
def dmleCopulaClayton (opt : (ℝ → ℝ) → ℝ → List (ℝ → ℝ) → OptResult)
    (n d : ℕ) (u : Fin n → Fin d → ℝ) : Option ℝ :=
  maxDiagPdf (opt
    (negLogDiagLik n (fun θ i => diagPdfClaytonLog n d u θ i))
    0.5 claytonConstraints)

/-- `dmle_copula_gumbel` (archimedean.py lines 379-402):
`max (log d / (log n - lsum (-log y))) 1` over the row maxima `y`; a NaN
from `lsum` propagates through `max` (Python's `max([nan, 1.0])` is NaN),
hence the `Option.map`. -/
def dmleCopulaGumbel (n d : ℕ) (u : Fin n → Fin d → ℝ) : Option ℝ :=
  (lsum (List.ofFn fun i : Fin n => -Real.log (diagCopula n d u i))).map
    fun l => max (Real.log d / (Real.log n - l)) 1

/-- `ipsi_frank` (archimedean.py lines 405-454): the three branches of the
elementwise `mapping_function`, logged afterwards when `is_log` is set.
Over `ℝ` the branch guard `np.exp (-theta) > 0` is always true (it fails in
floating point only by underflow). -/
def ipsiFrank (x θ : ℝ) (isLog : Bool) : ℝ :=
  let v :=
    if x ≤ 0.01 * |θ| then
      -Real.log (expm1 (-(x * θ)) / expm1 (-θ))
    else if 0 < Real.exp (-θ) ∧ |θ - x * θ| < 1 / 2 then
      -Real.log (1 + Real.exp (-θ) * expm1 (θ - x * θ) / expm1 (-θ))
    else
      -Real.log (1 + (Real.exp (-(x * θ)) - Real.exp (-θ)) / expm1 (-θ))
  if isLog then Real.log v else v

/-- `np.finfo(float).eps = 2^{-52}`. -/
def epsFloat : ℝ := 2 ^ (-52 : ℤ)

/-- `psi_frank` (archimedean.py lines 457-539): four branches on `θ`. -/
def psiFrank (x θ : ℝ) : ℝ :=
  if 0 < θ then -log1mexp (x - log1mexp θ) / θ
  else if θ = 0 then Real.exp (-x)
  else if θ < Real.log epsFloat then -log1pexp (-(x + θ)) / θ
  else -Real.log (1 + Real.exp (-x) * expm1 (-θ)) / θ

/-- `pdf_frank` with `is_log=True` (archimedean.py lines 733-788), per row:
`0` at `θ = 0`; otherwise
`(d-1)·log θ + polylog liarg (-(d-1)) - θ·Σu - Σ log1mexp (θ·u_j)` with
`liarg = -expm1 (-θ) · exp (Σ_j (log1mexp (θ·u_j) - log1mexp θ))`. -/
def pdfFrankLog (n d : ℕ) (u : Fin n → Fin d → ℝ) (θ : ℝ) (i : Fin n) : ℝ :=
  if θ = 0 then 0
  else
    ((d : ℝ) - 1) * Real.log θ +
      polylog (-(expm1 (-θ)) *
          Real.exp (∑ j, (log1mexp (θ * u i j) - log1mexp θ)))
        (-((d : ℤ) - 1)) false -
      θ * (∑ j, u i j) - ∑ j, log1mexp (θ * u i j)

/-- `pdf_frank` with `is_log=False`. -/
def pdfFrank (n d : ℕ) (u : Fin n → Fin d → ℝ) (θ : ℝ) (i : Fin n) : ℝ :=
  Real.exp (pdfFrankLog n d u θ i)

/-- The `ep` quantity of `diag_pdf_frank`'s `delt_dcom`
(archimedean.py lines 584-595). -/
def frankEp (θ x : ℝ) : ℝ :=
  (Real.exp (-x) - Real.exp (x - θ)) / (-(expm1 (-x)))

/-- `diag_pdf_frank` with `is_log=True` (archimedean.py lines 542-657):
three branches on `x = y·θ` (`y` the row maximum), each returning
`log d - log res` for its own `res` (the small-`x` branch subtracts `x` as
well). -/
def diagPdfFrankLog (n d : ℕ) (u : Fin n → Fin d → ℝ) (θ : ℝ) (i : Fin n) :
    ℝ :=
  let x := diagCopula n d u i * θ
  let ep := frankEp θ x
  let delt := Real.exp (-x) * (1 + ep)
  let dcom := (d : ℝ) + ((d : ℝ) - 1) * ep
  let dcomTime := (1 + ep) * delt
  if 25 < x then
    Real.log d - Real.log
      (((d : ℝ) - 1) * ((d : ℝ) - 2) / 2 * (1 + ((d : ℝ) - 3) / 3 * delt) *
        dcomTime + dcom)
  else if x < 0.1 then
    Real.log d - x - Real.log
      ((-(expm1 (-θ)) / -(expm1 (-x))) ^ ((d : ℝ) - 1) - -(expm1 (-x)))
  else
    Real.log d - Real.log
      (((d : ℝ) - 1) * ((d : ℝ) - 2) / 2 *
          (1 + ((d : ℝ) - 3) / 3 * delt *
            (1 + ((d : ℝ) - 4) / 4 * delt * (1 + ((d : ℝ) - 5) / 5 * delt))) *
        dcomTime + dcom)

/-- `dmle_copula_franck` (archimedean.py lines 165-191): same shape as the
Clayton estimator, with `franckConstraints`. -/
def dmleCopulaFranck (opt : (ℝ → ℝ) → ℝ → List (ℝ → ℝ) → OptResult)
    (n d : ℕ) (u : Fin n → Fin d → ℝ) : Option ℝ :=
  maxDiagPdf (opt
    (negLogDiagLik n (fun θ i => diagPdfFrankLog n d u θ i))
    0.5 franckConstraints)

/-- `ipsi_gumbel` (archimedean.py lines 791-847): `(-log x)^θ`, or
`θ · log (-log x)` in the log variant (this one really is computed in log
scale, not as the log of the natural-scale value). -/
def ipsiGumbel (x θ : ℝ) (isLog : Bool) : ℝ :=
  if isLog then θ * Real.log (-Real.log x)
  else (-Real.log x) ^ θ

/-- `psi_gumbel` (archimedean.py lines 850-880): `exp (-x^{1/θ})`. -/
def psiGumbel (x θ : ℝ) : ℝ := Real.exp (-x ^ (1 / θ))

/-- `diag_pdf_gumbel` with `is_log=True` (archimedean.py lines 883-930):
with `α = 1/θ`, `(d^α - 1)·log y + α·log d`. -/
def diagPdfGumbelLog (n d : ℕ) (u : Fin n → Fin d → ℝ) (θ : ℝ) (i : Fin n) :
    ℝ :=
  ((d : ℝ) ^ (1 / θ) - 1) * Real.log (diagCopula n d u i) +
    (1 / θ) * Real.log d

/-- The sign function `s_j` of `pdf_gumbel` (archimedean.py lines 973-994).
The source's `assert`s (`0 < α ≤ 1`, valid indices) are preconditions, not
computation, and are dropped. -/
def sJ (j : ℕ) (α : ℝ) (d : ℕ) : ℝ :=
  if α = 1 then
    if j = d then 1 else (-1 : ℝ) ^ ((d : ℤ) - (j : ℤ))
  else
    if α * j ≠ ⌊α * j⌋ then (-1 : ℝ) ^ ((j : ℤ) - ⌈α * j⌉)
    else 0

/-- `scipy.special.binom a d` at a natural second argument: the
generalised binomial coefficient `a·(a-1)⋯(a-d+1) / d!`. -/
def realBinom (a : ℝ) (d : ℕ) : ℝ :=
  (∏ i ∈ Finset.range d, (a - i)) / (Nat.factorial d)

/-- `scipy.stats.poisson.cdf k x = Σ_{i=0}^{k} e^{-x} x^i / i!`
(`poisson.logcdf` is its log; the source only ever exponentiates it). -/
def poissonCdf (k : ℕ) (x : ℝ) : ℝ :=
  ∑ i ∈ Finset.range (k + 1), Real.exp (-x) * x ^ i / (Nat.factorial i)

/-- One signed term `res[j-1]` of `log_polyg` (archimedean.py lines
996-1013).  The source accumulates
`log |binom (α j) d| + log d! + j·lx + x - log j! + poisson.logcdf (d-j) x`
and then takes `s_j · exp (·)`.  Since `log |binom| = -∞` when the binomial
vanishes (and `exp` of the sum is then exactly `0`), the exponential of the
sum of logs is written as the product of the factors, which is the same
extended-real computation expressed inside `ℝ`. -/
def gumbelTerm (lx α : ℝ) (d j : ℕ) : ℝ :=
  sJ j α d * |realBinom (α * j) d| * (Nat.factorial d) *
    Real.exp (j * lx) * Real.exp (Real.exp lx) *
    poissonCdf (d - j) (Real.exp lx) / (Nat.factorial j)

/-- `log_polyg` (archimedean.py lines 996-1013): `lssum` of the signed
terms for `j = 1, …, d`. -/
def logPolyg (lx α : ℝ) (d : ℕ) : Option ℝ :=
  lssum (List.ofFn fun j : Fin d => gumbelTerm lx α d (j + 1))

/-- `pdf_gumbel` with `is_log=True` (archimedean.py lines 933-1032), per
row: with `α = 1/θ`, `lnt = lsum (ipsi_gumbel row)`, `lx = α·lnt`,
`ls = log_polyg lx α d - d·lx/α` and `lnc = -exp lx`, the log-density is
`lnc + d·log θ + Σ_j ((θ-1)·log (-log u_j) + (-log u_j)) + ls`.
The intermediate assignments `lx`, `ls`, `lnc` are inlined below; NaN from
`lsum` or `lssum` propagates (`none`). -/
def pdfGumbelRowLog (d : ℕ) (u : Fin d → ℝ) (θ : ℝ) : Option ℝ :=
  (lsum (List.ofFn fun j => ipsiGumbel (u j) θ false)).bind fun lnt =>
    (logPolyg ((1 / θ) * lnt) (1 / θ) d).map fun lp =>
      -Real.exp ((1 / θ) * lnt) + (d : ℝ) * Real.log θ +
        (∑ j, ((θ - 1) * Real.log (-Real.log (u j)) + -Real.log (u j))) +
        (lp - (d : ℝ) * ((1 / θ) * lnt) / (1 / θ))

/-- `pdf_gumbel` with `is_log=False`. -/
def pdfGumbelRow (d : ℕ) (u : Fin d → ℝ) (θ : ℝ) : Option ℝ :=
  (pdfGumbelRowLog d u θ).map Real.exp

/-! ### Shared helper lemmas -/

theorem le_foldl_max (l : List ℝ) (a : ℝ) : a ≤ l.foldl max a := by
  induction l generalizing a with
  | nil => simp
  | cons y ys ih => exact le_trans (le_max_left a y) (ih (max a y))

theorem mem_le_foldl_max (l : List ℝ) (a x : ℝ) (hx : x ∈ l) :
    x ≤ l.foldl max a := by
  induction l generalizing a with
  | nil => cases hx
  | cons y ys ih =>
    rcases List.mem_cons.mp hx with h | h
    · subst h
      exact le_trans (le_max_right a x) (le_foldl_max ys (max a x))
    · exact ih (max a y) h

theorem le_listMax {l : List ℝ} {x : ℝ} (hx : x ∈ l) : x ≤ listMax l := by
  cases l with
  | nil => cases hx
  | cons y ys =>
    rcases List.mem_cons.mp hx with h | h
    · subst h; exact le_foldl_max ys x
    · exact mem_le_foldl_max ys y x h

theorem list_sum_pos {l : List ℝ} (h0 : ∀ x ∈ l, 0 ≤ x)
    (hp : ∃ x ∈ l, 0 < x) : 0 < l.sum := by
  induction l with
  | nil => simp at hp
  | cons y ys ih =>
    rcases hp with ⟨x, hx, hxpos⟩
    rcases List.mem_cons.mp hx with h | h
    · subst h
      have : (0 : ℝ) ≤ ys.sum :=
        List.sum_nonneg (fun z hz => h0 z (List.mem_cons_of_mem _ hz))
      simpa using add_pos_of_pos_of_nonneg hxpos this
    · have : 0 < ys.sum :=
        ih (fun z hz => h0 z (List.mem_cons_of_mem _ hz)) ⟨x, h, hxpos⟩
      have hy : (0 : ℝ) ≤ y := h0 y (List.mem_cons_self _ _)
      simpa using add_pos_of_nonneg_of_pos hy this

theorem listMax_pos {l : List ℝ} (_h0 : ∀ x ∈ l, 0 ≤ x)
    (hp : ∃ x ∈ l, 0 < x) : 0 < listMax l := by
  rcases hp with ⟨x, hx, hxpos⟩
  exact lt_of_lt_of_le hxpos (le_listMax hx)

theorem expShiftLog_of_nonneg {m x : ℝ} (hm : 0 < m) (hx : 0 ≤ x) :
    expShiftLog (Real.log m) x = x / m := by
  unfold expShiftLog
  rcases eq_or_lt_of_le hx with h | h
  · simp [← h]
  · rw [if_neg (ne_of_gt h), Real.exp_sub, Real.exp_log h, Real.exp_log hm]

/-- Evaluation of `lsum` on a nonnegative list with a positive entry:
the rescaled sum telescopes back to `log (Σ x_i)`. -/
theorem lsum_eq_log_sum {l : List ℝ} (h0 : ∀ x ∈ l, 0 ≤ x)
    (hp : ∃ x ∈ l, 0 < x) : lsum l = some (Real.log l.sum) := by
  have hm : 0 < listMax l := listMax_pos h0 hp
  have hs : 0 < l.sum := list_sum_pos h0 hp
  unfold lsum
  rw [if_pos ⟨h0, hp⟩]
  have hmap : (l.map (expShiftLog (Real.log (listMax l)))).sum
      = l.sum / listMax l := by
    have h1 : l.map (expShiftLog (Real.log (listMax l)))
        = l.map (fun x => x * (listMax l)⁻¹) := by
      apply List.map_congr_left
      intro x hx
      rw [expShiftLog_of_nonneg hm (h0 x hx), div_eq_mul_inv]
    rw [h1]
    rw [show (fun x : ℝ => x * (listMax l)⁻¹)
        = (fun x : ℝ => id x * (listMax l)⁻¹) from rfl]
    rw [List.sum_map_mul_right, List.map_id]
    exact (div_eq_mul_inv _ _).symm
  rw [hmap, Real.log_div (ne_of_gt hs) (ne_of_gt hm)]
  norm_num

/-! ### Interval bounds on logarithms of decimal literals

The Taylor remainder bound `Real.abs_log_sub_add_sum_range_le` encloses
`log (1-x)` between partial sums; combined with the Mathlib decimal bounds
on `log 2`, this encloses `log y` for `y = (1-x)/2^k` or `y = (1-x)·2^k`.
All numeric side conditions are discharged by `norm_num` over exact
rationals. -/

theorem log_bounds_scale_div (y x a : ℝ) (k n : ℕ) (slo shi lo hi : ℝ)
    (hax : |x| = a) (ha1 : a < 1)
    (hyx : y = (1 - x) / 2 ^ k)
    (hslo : slo ≤ -(∑ i ∈ Finset.range n, x ^ (i + 1) / (i + 1)) -
      a ^ (n + 1) / (1 - a))
    (hshi : -(∑ i ∈ Finset.range n, x ^ (i + 1) / (i + 1)) +
      a ^ (n + 1) / (1 - a) ≤ shi)
    (hlo : lo ≤ slo - k * 0.6931471808)
    (hhi : shi - k * 0.6931471803 ≤ hi) :
    lo ≤ Real.log y ∧ Real.log y ≤ hi := by
  have hx1 : |x| < 1 := by rw [hax]; exact ha1
  have hxlt : x < 1 := lt_of_le_of_lt (le_abs_self x) hx1
  have h1x : 0 < 1 - x := by linarith
  have hb := Real.abs_log_sub_add_sum_range_le hx1 n
  rw [hax, abs_le] at hb
  have hly : Real.log y = Real.log (1 - x) - k * Real.log 2 := by
    rw [hyx, Real.log_div (ne_of_gt h1x) (by positivity), Real.log_pow]
  have l2lo := Real.log_two_gt_d9
  have l2hi := Real.log_two_lt_d9
  have hk : (0 : ℝ) ≤ (k : ℝ) := Nat.cast_nonneg k
  have hklo : (k : ℝ) * 0.6931471803 ≤ (k : ℝ) * Real.log 2 :=
    mul_le_mul_of_nonneg_left (le_of_lt l2lo) hk
  have hkhi : (k : ℝ) * Real.log 2 ≤ (k : ℝ) * 0.6931471808 :=
    mul_le_mul_of_nonneg_left (le_of_lt l2hi) hk
  constructor <;> linarith [hb.1, hb.2]

theorem log_bounds_scale_mul (y x a : ℝ) (k n : ℕ) (slo shi lo hi : ℝ)
    (hax : |x| = a) (ha1 : a < 1)
    (hyx : y = (1 - x) * 2 ^ k)
    (hslo : slo ≤ -(∑ i ∈ Finset.range n, x ^ (i + 1) / (i + 1)) -
      a ^ (n + 1) / (1 - a))
    (hshi : -(∑ i ∈ Finset.range n, x ^ (i + 1) / (i + 1)) +
      a ^ (n + 1) / (1 - a) ≤ shi)
    (hlo : lo ≤ slo + k * 0.6931471803)
    (hhi : shi + k * 0.6931471808 ≤ hi) :
    lo ≤ Real.log y ∧ Real.log y ≤ hi := by
  have hx1 : |x| < 1 := by rw [hax]; exact ha1
  have hxlt : x < 1 := lt_of_le_of_lt (le_abs_self x) hx1
  have h1x : 0 < 1 - x := by linarith
  have hb := Real.abs_log_sub_add_sum_range_le hx1 n
  rw [hax, abs_le] at hb
  have hly : Real.log y = Real.log (1 - x) + k * Real.log 2 := by
    rw [hyx, Real.log_mul (ne_of_gt h1x) (by positivity), Real.log_pow]
  have l2lo := Real.log_two_gt_d9
  have l2hi := Real.log_two_lt_d9
  have hk : (0 : ℝ) ≤ (k : ℝ) := Nat.cast_nonneg k
  have hklo : (k : ℝ) * 0.6931471803 ≤ (k : ℝ) * Real.log 2 :=
    mul_le_mul_of_nonneg_left (le_of_lt l2lo) hk
  have hkhi : (k : ℝ) * Real.log 2 ≤ (k : ℝ) * 0.6931471808 :=
    mul_le_mul_of_nonneg_left (le_of_lt l2hi) hk
  constructor <;> linarith [hb.1, hb.2]

theorem listMax_three (a b c : ℝ) : listMax [a, b, c] = max (max a b) c := rfl

/-! ### C3 — Clayton density for negative θ -/

/-- C3: for `θ < 0`, with `t = Σ_j ipsi_clayton (u i j) θ` and
`ℓu = Σ_j log (u i j)`, the Clayton log-density is
`log (1+θ) - (1+θ)·ℓu - (d + 1/θ)·log (1-t)` while `t < 1`, and the
*returned value* `-∞` (natural-scale density exactly `0`) once `t ≥ 1` —
no error path exists. -/
theorem pdfClayton_neg_theta (n d : ℕ) (u : Fin n → Fin d → ℝ) (θ : ℝ)
    (hθ : θ < 0) (i : Fin n) :
    ((∑ j, ipsiClayton (u i j) θ false) < 1 →
      pdfClaytonLog n d u θ i =
        ((Real.log (1 + θ) - (1 + θ) * (∑ j, Real.log (u i j)) -
          ((d : ℝ) + 1 / θ) *
            Real.log (1 - ∑ j, ipsiClayton (u i j) θ false) : ℝ) : EReal)) ∧
    (1 ≤ (∑ j, ipsiClayton (u i j) θ false) →
      pdfClaytonLog n d u θ i = ⊥ ∧ pdfClayton n d u θ i = 0) := by
  constructor
  · intro ht
    simp only [pdfClaytonLog]
    rw [if_pos hθ, if_pos ht]
  · intro ht
    have hnt : ¬(∑ j, ipsiClayton (u i j) θ false) < 1 := not_lt.mpr ht
    have hbot : pdfClaytonLog n d u θ i = ⊥ := by
      simp only [pdfClaytonLog]
      rw [if_pos hθ, if_neg hnt]
    exact ⟨hbot, by simp [pdfClayton, hbot, expE]⟩

/-- Concrete 2×2 pseudo-observation matrix for the C3 witness: at
`θ = -1/2` the first row has `t = 1/2 < 1`, the second `t = 1`. -/
def cex3U : Fin 2 → Fin 2 → ℝ := ![![9 / 16, 9 / 16], ![1 / 4, 1 / 4]]

/-- C3 witness: both branches at the explicit matrix `cex3U`, `θ = -1/2`. -/
theorem pdfClayton_neg_theta_witness :
    pdfClaytonLog 2 2 cex3U (-1 / 2) 0 =
      ((Real.log (1 + -1 / 2) - (1 + -1 / 2) * (∑ j, Real.log (cex3U 0 j)) -
        ((2 : ℝ) + 1 / (-1 / 2)) * Real.log (1 - 1 / 2) : ℝ) : EReal) ∧
    pdfClaytonLog 2 2 cex3U (-1 / 2) 1 = ⊥ ∧
    pdfClayton 2 2 cex3U (-1 / 2) 1 = 0 := by
  have hsign : Real.sign (-1 / 2 : ℝ) = -1 := Real.sign_of_neg (by norm_num)
  have h34 : ((9 : ℝ) / 16) ^ (-(-1 / 2 : ℝ) : ℝ) = 3 / 4 := by
    rw [show (9 : ℝ) / 16 = (3 / 4 : ℝ) ^ (2 : ℕ) by norm_num,
      show (-(-1 / 2 : ℝ) : ℝ) = ((2 : ℕ) : ℝ)⁻¹ by norm_num]
    exact Real.pow_rpow_inv_natCast (by norm_num) (by norm_num)
  have h14 : ((1 : ℝ) / 4) ^ (-(-1 / 2 : ℝ) : ℝ) = 1 / 2 := by
    rw [show (1 : ℝ) / 4 = (1 / 2 : ℝ) ^ (2 : ℕ) by norm_num,
      show (-(-1 / 2 : ℝ) : ℝ) = ((2 : ℕ) : ℝ)⁻¹ by norm_num]
    exact Real.pow_rpow_inv_natCast (by norm_num) (by norm_num)
  have ht0 : (∑ j, ipsiClayton (cex3U 0 j) (-1 / 2) false) = 1 / 2 := by
    simp only [ipsiClayton, cex3U, Fin.sum_univ_two, Matrix.cons_val_zero,
      Matrix.cons_val_one, Matrix.head_cons, if_neg Bool.false_ne_true,
      Bool.false_eq_true, if_false, hsign, h34]
    norm_num
  have ht1 : (∑ j, ipsiClayton (cex3U 1 j) (-1 / 2) false) = 1 := by
    simp only [ipsiClayton, cex3U, Fin.sum_univ_two, Matrix.cons_val_zero,
      Matrix.cons_val_one, Matrix.head_cons, Bool.false_eq_true, if_false,
      hsign, h14]
    norm_num
  have h0 := (pdfClayton_neg_theta 2 2 cex3U (-1 / 2) (by norm_num) 0).1
    (by rw [ht0]; norm_num)
  have h1 := (pdfClayton_neg_theta 2 2 cex3U (-1 / 2) (by norm_num) 1).2
    (by rw [ht1])
  rw [ht0] at h0
  exact ⟨h0, h1.1, h1.2⟩

/-! ### C10 — generator round trips -/

theorem log1mexp_eq (x : ℝ) : log1mexp x = Real.log (1 - Real.exp (-x)) := by
  unfold log1mexp expm1
  split_ifs with h
  · norm_num
  · rfl

theorem exp_neg_sub_one_ne_zero {θ : ℝ} (hθ : θ ≠ 0) :
    Real.exp (-θ) - 1 ≠ 0 := by
  intro h
  have h1 : Real.exp (-θ) = 1 := by linarith
  rw [Real.exp_eq_one_iff] at h1
  exact hθ (by linarith)

/-- All three branches of `ipsi_frank` are rearrangements of
`-log ((e^{-uθ} - 1)/(e^{-θ} - 1))`. -/
theorem ipsiFrank_eq_canonical (u θ : ℝ) (hθ : θ ≠ 0) :
    ipsiFrank u θ false =
      -Real.log ((Real.exp (-(u * θ)) - 1) / (Real.exp (-θ) - 1)) := by
  have hden := exp_neg_sub_one_ne_zero hθ
  have key : Real.exp (-θ) * Real.exp (θ - u * θ) = Real.exp (-(u * θ)) := by
    rw [← Real.exp_add]
    ring_nf
  unfold ipsiFrank expm1
  simp only [Bool.false_eq_true, if_false]
  split_ifs with h1 h2
  · rfl
  · congr 2
    field_simp
    linear_combination key
  · congr 2
    field_simp

theorem clayton_roundtrip (u θ : ℝ) (hu : 0 < u) (hθ : θ ≠ 0) :
    psiClayton (ipsiClayton u θ false) θ = u := by
  have hs : Real.sign θ * Real.sign θ = 1 := by
    rcases lt_or_gt_of_ne hθ with h | h
    · rw [Real.sign_of_neg h]; norm_num
    · rw [Real.sign_of_pos h]; norm_num
  have ha : 0 < u ^ (-θ : ℝ) := Real.rpow_pos_of_pos hu _
  unfold psiClayton ipsiClayton
  simp only [Bool.false_eq_true, if_false]
  rw [← mul_assoc, hs, one_mul]
  rw [show (1 : ℝ) + (u ^ (-θ : ℝ) - 1) = u ^ (-θ : ℝ) by ring]
  rw [max_eq_left ha.le, ← Real.rpow_mul hu.le]
  rw [show (-θ) * (-1 / θ) = 1 by field_simp, Real.rpow_one]

theorem gumbel_roundtrip (u θ : ℝ) (hu : 0 < u) (hu1 : u < 1) (hθ : 1 ≤ θ) :
    psiGumbel (ipsiGumbel u θ false) θ = u := by
  have hθ0 : θ ≠ 0 := by linarith
  have hl : 0 ≤ -Real.log u := by
    have := Real.log_neg hu hu1
    linarith
  unfold psiGumbel ipsiGumbel
  simp only [Bool.false_eq_true, if_false]
  rw [← Real.rpow_mul hl, show θ * (1 / θ) = 1 by field_simp, Real.rpow_one,
    neg_neg, Real.exp_log hu]

theorem frank_roundtrip (u θ : ℝ) (hu : 0 < u) (_hu1 : u < 1) (hθ : 0 < θ) :
    psiFrank (ipsiFrank u θ false) θ = u := by
  have hθ0 : θ ≠ 0 := ne_of_gt hθ
  have hnum : Real.exp (-(u * θ)) - 1 < 0 := by
    have : Real.exp (-(u * θ)) < 1 :=
      Real.exp_lt_one_iff.mpr (by nlinarith)
    linarith
  have hden : Real.exp (-θ) - 1 < 0 := by
    have : Real.exp (-θ) < 1 := Real.exp_lt_one_iff.mpr (by linarith)
    linarith
  have hR : 0 < (Real.exp (-(u * θ)) - 1) / (Real.exp (-θ) - 1) :=
    div_pos_iff.mpr (Or.inr ⟨hnum, hden⟩)
  have h1 : 0 < 1 - Real.exp (-θ) := by linarith
  rw [ipsiFrank_eq_canonical u θ hθ0]
  unfold psiFrank
  rw [if_pos hθ, log1mexp_eq, log1mexp_eq]
  rw [show -(-Real.log ((Real.exp (-(u * θ)) - 1) / (Real.exp (-θ) - 1)) -
      Real.log (1 - Real.exp (-θ)))
    = Real.log ((Real.exp (-(u * θ)) - 1) / (Real.exp (-θ) - 1)) +
      Real.log (1 - Real.exp (-θ)) by ring]
  rw [Real.exp_add, Real.exp_log hR, Real.exp_log h1]
  have hc : (Real.exp (-(u * θ)) - 1) / (Real.exp (-θ) - 1) *
      (Real.exp (-θ) - 1) = Real.exp (-(u * θ)) - 1 :=
    div_mul_cancel₀ _ (ne_of_lt hden)
  rw [show 1 - (Real.exp (-(u * θ)) - 1) / (Real.exp (-θ) - 1) *
      (1 - Real.exp (-θ)) = Real.exp (-(u * θ)) by linear_combination hc]
  rw [Real.log_exp]
  field_simp

/-- C10: for every `u ∈ (0,1)` and every θ in the family's feasible range
(Clayton: any `θ ≠ 0`, covering both `(0,1000)` and the supported negative
range; Frank: `θ > 0`; Gumbel: `θ ≥ 1`), `psi (ipsi u θ) θ = u` — exactly
over `ℝ`, hence within floating tolerance. -/
theorem psi_ipsi_roundtrip :
    (∀ u θ : ℝ, 0 < u → u < 1 → θ ≠ 0 →
      psiClayton (ipsiClayton u θ false) θ = u) ∧
    (∀ u θ : ℝ, 0 < u → u < 1 → 0 < θ →
      psiFrank (ipsiFrank u θ false) θ = u) ∧
    (∀ u θ : ℝ, 0 < u → u < 1 → 1 ≤ θ →
      psiGumbel (ipsiGumbel u θ false) θ = u) :=
  ⟨fun u θ hu _ hθ => clayton_roundtrip u θ hu hθ,
   fun u θ hu hu1 hθ => frank_roundtrip u θ hu hu1 hθ,
   fun u θ hu hu1 hθ => gumbel_roundtrip u θ hu hu1 hθ⟩

/-- C10 witness: the three round trips at `u = 1/2`, `θ = 2`. -/
theorem psi_ipsi_roundtrip_witness :
    psiClayton (ipsiClayton (1 / 2) 2 false) 2 = 1 / 2 ∧
    psiFrank (ipsiFrank (1 / 2) 2 false) 2 = 1 / 2 ∧
    psiGumbel (ipsiGumbel (1 / 2) 2 false) 2 = 1 / 2 :=
  ⟨psi_ipsi_roundtrip.1 (1 / 2) 2 (by norm_num) (by norm_num) (by norm_num),
   psi_ipsi_roundtrip.2.1 (1 / 2) 2 (by norm_num) (by norm_num) (by norm_num),
   psi_ipsi_roundtrip.2.2 (1 / 2) 2 (by norm_num) (by norm_num) (by norm_num)⟩

/-! ### C2 — independence-parameter densities -/

theorem gumbelTerm_one_indep (lx : ℝ) :
    gumbelTerm lx (1 / 1) 2 1 = 0 := by
  unfold gumbelTerm realBinom
  rw [Finset.prod_range_succ, Finset.prod_range_succ, Finset.prod_range_zero]
  norm_num

theorem gumbelTerm_two_indep (S : ℝ) (hS : 0 < S) :
    gumbelTerm (1 / 1 * Real.log S) (1 / 1) 2 2 = S * S := by
  unfold gumbelTerm realBinom sJ poissonCdf
  rw [Finset.prod_range_succ, Finset.prod_range_succ, Finset.prod_range_zero]
  norm_num [Nat.factorial]
  rw [Real.exp_log hS, two_mul (Real.log S), Real.exp_add, Real.exp_log hS,
    mul_assoc, ← Real.exp_add]
  simp

/-- Evaluation of the `θ = 1` (independence) Gumbel joint density on a
2-column row `[a, b]`: writing `S = -log a - log b` (the aggregated
`ipsi`), the code returns log-density `0` when `S ≥ 1`, but `none` (NaN:
`lssum` takes the log of a negative accumulation) when `S < 1`. -/
theorem pdfGumbelRow_indep_two (a b : ℝ) (ha0 : 0 < a) (ha1 : a < 1)
    (hb0 : 0 < b) (hb1 : b < 1) :
    pdfGumbelRowLog 2 ![a, b] 1 =
      if 1 ≤ -Real.log a + -Real.log b then some 0 else none := by
  set S : ℝ := -Real.log a + -Real.log b with hSdef
  have hSa : 0 < -Real.log a := by have := Real.log_neg ha0 ha1; linarith
  have hSb : 0 < -Real.log b := by have := Real.log_neg hb0 hb1; linarith
  have hS : 0 < S := by positivity
  have hSS : 0 < S * S := mul_pos hS hS
  have hlist : (List.ofFn fun j : Fin 2 => ipsiGumbel ((![a, b]) j) 1 false)
      = [-Real.log a, -Real.log b] := by
    simp [List.ofFn_succ, ipsiGumbel, Real.rpow_one]
  have hlsum : lsum [-Real.log a, -Real.log b] = some (Real.log S) := by
    have h := lsum_eq_log_sum (l := [-Real.log a, -Real.log b])
      (by
        intro x hx
        simp only [List.mem_cons, List.not_mem_nil, or_false] at hx
        rcases hx with rfl | rfl
        · exact hSa.le
        · exact hSb.le)
      ⟨-Real.log a, by simp, hSa⟩
    rw [show ([-Real.log a, -Real.log b]).sum = S by
      simp [hSdef]] at h
    exact h
  have hterms : (List.ofFn fun j : Fin 2 =>
      gumbelTerm (1 / 1 * Real.log S) (1 / 1) 2 ((j : ℕ) + 1))
      = [0, S * S] := by
    simp only [List.ofFn_succ, List.ofFn_zero, Fin.val_zero, Fin.val_succ]
    rw [show (0 : ℕ) + 1 = 1 from rfl, show (0 : ℕ) + 1 + 1 = 2 from rfl]
    rw [gumbelTerm_one_indep, gumbelTerm_two_indep S hS]
  have hm : listMax [|(0 : ℝ)|, |S * S|] = S * S := by
    rw [abs_zero, abs_of_nonneg hSS.le]
    show List.foldl max 0 [S * S] = S * S
    simp only [List.foldl]
    exact max_eq_right hSS.le
  unfold pdfGumbelRowLog
  rw [hlist, hlsum, Option.some_bind]
  unfold logPolyg
  rw [hterms]
  unfold lssum
  simp only [List.map, List.sum_cons, List.sum_nil]
  rw [hm]
  simp only [if_true]
  rw [if_neg (ne_of_gt hSS), abs_of_nonneg hSS.le]
  by_cases hc : 1 ≤ S
  · have hlogS : 0 ≤ Real.log S := Real.log_nonneg hc
    have hlSS : 0 ≤ Real.log (S * S) := by
      rw [Real.log_mul (ne_of_gt hS) (ne_of_gt hS)]
      linarith
    rw [if_pos hlSS, sub_self (Real.log (S * S)), Real.exp_zero]
    rw [if_pos (⟨hSS, by norm_num⟩ : 0 < S * S ∧ (0 : ℝ) < 0 + (1 + 0))]
    rw [if_pos hc]
    simp only [Option.map_some']
    congr 1
    rw [show (0 : ℝ) + (1 + 0) = 1 by norm_num, Real.log_one, add_zero]
    rw [Real.log_mul (ne_of_gt hS) (ne_of_gt hS)]
    rw [one_div_one, one_mul, Real.exp_log hS]
    simp only [Fin.sum_univ_two, Matrix.cons_val_zero, Matrix.cons_val_one,
      Matrix.head_cons]
    push_cast
    rw [hSdef]
    ring
  · have hS1 : S < 1 := lt_of_not_le hc
    have hlSS : ¬0 ≤ Real.log (S * S) := by
      have : Real.log (S * S) < 0 := Real.log_neg hSS (by nlinarith)
      linarith
    rw [if_neg hlSS, sub_self (Real.log (S * S)), Real.exp_zero]
    rw [if_neg (by
      intro h
      have := h.2
      norm_num at this : ¬(0 < S * S ∧ (0 : ℝ) < 0 + (-1 + 0)))]
    rw [if_neg hc]
    simp

/-- C2: at the independence parameter, the Clayton (`θ = 0`) and Frank
(`θ = 0`) joint densities are identically `1` (log-density `0`) for every
matrix; the Gumbel density at `θ = 1` returns `1` on a row exactly when the
aggregated inverse generator `S = Σ_j -log u_j` is at least `1`, but on the
valid row `[0.8, 0.9]` (where `S = log (25/18) < 1`) it is NaN — inside
`lssum` the surviving term `S²` has `log S² < 0`, is therefore *subtracted*,
and `log` of the negative accumulation is taken — contradicting the claimed
`pdf_gumbel(U, 1) ≈ 1`. -/
theorem independence_parameter_densities :
    (∀ (n d : ℕ) (u : Fin n → Fin d → ℝ) (i : Fin n),
      pdfClaytonLog n d u 0 i = 0 ∧ pdfClayton n d u 0 i = 1) ∧
    (∀ (n d : ℕ) (u : Fin n → Fin d → ℝ) (i : Fin n),
      pdfFrankLog n d u 0 i = 0 ∧ pdfFrank n d u 0 i = 1) ∧
    (pdfGumbelRowLog 2 ![Real.exp (-1), Real.exp (-1)] 1 = some 0 ∧
      pdfGumbelRow 2 ![Real.exp (-1), Real.exp (-1)] 1 = some 1) ∧
    (pdfGumbelRowLog 2 ![0.8, 0.9] 1 = none ∧
      pdfGumbelRow 2 ![0.8, 0.9] 1 = none) := by
  have he0 : (0 : ℝ) < Real.exp (-1) := Real.exp_pos _
  have he1 : Real.exp (-1 : ℝ) < 1 := Real.exp_lt_one_iff.mpr (by norm_num)
  refine ⟨?_, ?_, ?_, ?_⟩
  · intro n d u i
    constructor
    · simp [pdfClaytonLog, lt_irrefl]
    · simp [pdfClayton, pdfClaytonLog, lt_irrefl, expE]
  · intro n d u i
    constructor
    · simp [pdfFrankLog]
    · simp [pdfFrank, pdfFrankLog]
  · have h := pdfGumbelRow_indep_two (Real.exp (-1)) (Real.exp (-1))
      he0 he1 he0 he1
    rw [Real.log_exp] at h
    rw [if_pos (by norm_num : (1 : ℝ) ≤ - -1 + - -1)] at h
    exact ⟨h, by rw [pdfGumbelRow, h]; simp⟩
  · have h1 : -Real.log 0.8 ≤ (0.25 : ℝ) := by
      rw [← Real.log_inv]
      calc Real.log ((0.8 : ℝ)⁻¹) ≤ (0.8 : ℝ)⁻¹ - 1 :=
        Real.log_le_sub_one_of_pos (by norm_num)
      _ ≤ 0.25 := by norm_num
    have h2 : -Real.log 0.9 ≤ (0.2 : ℝ) := by
      rw [← Real.log_inv]
      calc Real.log ((0.9 : ℝ)⁻¹) ≤ (0.9 : ℝ)⁻¹ - 1 :=
        Real.log_le_sub_one_of_pos (by norm_num)
      _ ≤ 0.2 := by norm_num
    have h := pdfGumbelRow_indep_two 0.8 0.9 (by norm_num) (by norm_num)
      (by norm_num) (by norm_num)
    rw [if_neg (by
      intro hcon
      have : (1 : ℝ) ≤ 0.25 + 0.2 := le_trans hcon (by
        apply add_le_add h1 h2)
      norm_num at this)] at h
    exact ⟨h, by rw [pdfGumbelRow, h]; simp⟩

/-! ### C8 — the Eulerian polylogarithm -/

theorem polylog_neg_two (z : ℝ) :
    polylog z (-2) false =
      Real.log (z + 1) + Real.log z - 3 * Real.log (1 - z) := by
  unfold polylog
  rw [if_neg (by norm_num : ¬false = true)]
  rw [show ((-(-2 : ℤ)).toNat) = 2 from rfl,
    show eulerianAll 2 = [1, 1] from rfl]
  norm_num [polyneval]

set_option maxHeartbeats 2000000 in
/-- C8: `polylog z (-n)` returns `log (P z) + log z - (n+1)·log (1-z)`
with `P` the polynomial whose coefficients are row `n` of the Eulerian
triangle; the log-input variant (`w = log z`) returns
`log (P e^w) + w - (n+1)·log1mexp (-w)`; and at order `-2` the values at
`z = 0.01556112, 0.00108968, 0.00889932` agree with the reference outputs
`-4.1004881, -6.81751129, -4.68610299` to within `10^{-6}`. -/
theorem polylog_formula_and_reference :
    (∀ (z : ℝ) (n : ℕ), polylog z (-(n : ℤ)) false =
      Real.log (polyneval ((eulerianAll n).map (fun c => (c : ℝ))) z) +
        Real.log z - ((n : ℝ) + 1) * Real.log (1 - z)) ∧
    (∀ (w : ℝ) (n : ℕ), polylog w (-(n : ℤ)) true =
      Real.log (polyneval ((eulerianAll n).map (fun c => (c : ℝ)))
        (Real.exp w)) + w - ((n : ℝ) + 1) * log1mexp (-w)) ∧
    |polylog 0.01556112 (-2) false - (-4.1004881)| < 1e-6 ∧
    |polylog 0.00108968 (-2) false - (-6.81751129)| < 1e-6 ∧
    |polylog 0.00889932 (-2) false - (-4.68610299)| < 1e-6 := by
  have hv0 : |polylog 0.01556112 (-2) false - (-4.1004881)| < 1e-6 := by
    have hz0 : (-4.16297978483 : ℝ) ≤ Real.log 0.01556112 ∧
        Real.log (0.01556112 : ℝ) ≤ -4.16297978182 :=
      log_bounds_scale_div 0.01556112 (0.00408832) 0.00408832 6 5
        (-0.00409670003) (-0.00409670002) (-4.16297978483) (-4.16297978182)
        (by rw [abs_of_nonneg]; norm_num) (by norm_num) (by norm_num)
        (by norm_num [Finset.sum_range_succ])
        (by norm_num [Finset.sum_range_succ])
        (by norm_num) (by norm_num)
    have hp0 : (0.01544128732 : ℝ) ≤ Real.log 1.01556112 ∧
        Real.log (1.01556112 : ℝ) ≤ 0.01544128733 :=
      log_bounds_scale_div 1.01556112 (-0.01556112) 0.01556112 0 6
        (0.01544128732) (0.01544128733) (0.01544128732) (0.01544128733)
        (by rw [abs_of_neg] <;> norm_num) (by norm_num) (by norm_num)
        (by norm_num [Finset.sum_range_succ])
        (by norm_num [Finset.sum_range_succ])
        (by norm_num) (by norm_num)
    have hm0 : (-0.01568346511 : ℝ) ≤ Real.log 0.98443888 ∧
        Real.log (0.98443888 : ℝ) ≤ -0.0156834651 :=
      log_bounds_scale_div 0.98443888 (0.01556112) 0.01556112 0 6
        (-0.01568346511) (-0.0156834651) (-0.01568346511) (-0.0156834651)
        (by rw [abs_of_nonneg]; norm_num) (by norm_num) (by norm_num)
        (by norm_num [Finset.sum_range_succ])
        (by norm_num [Finset.sum_range_succ])
        (by norm_num) (by norm_num)
    rw [polylog_neg_two]
    rw [show (0.01556112 : ℝ) + 1 = 1.01556112 by norm_num,
      show (1 : ℝ) - 0.01556112 = 0.98443888 by norm_num]
    rw [abs_lt]
    constructor <;>
      linarith [hz0.1, hz0.2, hp0.1, hp0.2, hm0.1, hm0.2]
  have hv1 : |polylog 0.00108968 (-2) false - (-6.81751129)| < 1e-6 := by
    have hz1 : (-6.82187120623 : ℝ) ≤ Real.log 0.00108968 ∧
        Real.log (0.00108968 : ℝ) ≤ -6.82187120122 :=
      log_bounds_scale_div 0.00108968 (-0.11583232) 0.11583232 10 12
        (0.10960060177) (0.10960060178) (-6.82187120623) (-6.82187120122)
        (by rw [abs_of_neg] <;> norm_num) (by norm_num) (by norm_num)
        (by norm_num [Finset.sum_range_succ])
        (by norm_num [Finset.sum_range_succ])
        (by norm_num) (by norm_num)
    have hp1 : (0.00108908672 : ℝ) ≤ Real.log 1.00108968 ∧
        Real.log (1.00108968 : ℝ) ≤ 0.00108908673 :=
      log_bounds_scale_div 1.00108968 (-0.00108968) 0.00108968 0 6
        (0.00108908672) (0.00108908673) (0.00108908672) (0.00108908673)
        (by rw [abs_of_neg] <;> norm_num) (by norm_num) (by norm_num)
        (by norm_num [Finset.sum_range_succ])
        (by norm_num [Finset.sum_range_succ])
        (by norm_num) (by norm_num)
    have hm1 : (-0.00109027414 : ℝ) ≤ Real.log 0.99891032 ∧
        Real.log (0.99891032 : ℝ) ≤ -0.00109027413 :=
      log_bounds_scale_div 0.99891032 (0.00108968) 0.00108968 0 6
        (-0.00109027414) (-0.00109027413) (-0.00109027414) (-0.00109027413)
        (by rw [abs_of_nonneg]; norm_num) (by norm_num) (by norm_num)
        (by norm_num [Finset.sum_range_succ])
        (by norm_num [Finset.sum_range_succ])
        (by norm_num) (by norm_num)
    rw [polylog_neg_two]
    rw [show (0.00108968 : ℝ) + 1 = 1.00108968 by norm_num,
      show (1 : ℝ) - 0.00108968 = 0.99891032 by norm_num]
    rw [abs_lt]
    constructor <;>
      linarith [hz1.1, hz1.2, hp1.1, hp1.2, hm1.1, hm1.2]
  have hv2 : |polylog 0.00889932 (-2) false - (-4.68610299)| < 1e-6 := by
    have hz2 : (-4.72178041134 : ℝ) ≤ Real.log 0.00889932 ∧
        Real.log (0.00889932 : ℝ) ≤ -4.72178040783 :=
      log_bounds_scale_div 0.00889932 (-0.13911296) 0.13911296 7 13
        (0.13024985426) (0.13024985427) (-4.72178041134) (-4.72178040783)
        (by rw [abs_of_neg] <;> norm_num) (by norm_num) (by norm_num)
        (by norm_num [Finset.sum_range_succ])
        (by norm_num [Finset.sum_range_succ])
        (by norm_num) (by norm_num)
    have hp2 : (0.00885995443 : ℝ) ≤ Real.log 1.00889932 ∧
        Real.log (1.00889932 : ℝ) ≤ 0.00885995444 :=
      log_bounds_scale_div 1.00889932 (-0.00889932) 0.00889932 0 6
        (0.00885995443) (0.00885995444) (0.00885995443) (0.00885995444)
        (by rw [abs_of_neg] <;> norm_num) (by norm_num) (by norm_num)
        (by norm_num [Finset.sum_range_succ])
        (by norm_num [Finset.sum_range_succ])
        (by norm_num) (by norm_num)
    have hm2 : (-0.00893915547 : ℝ) ≤ Real.log 0.99110068 ∧
        Real.log (0.99110068 : ℝ) ≤ -0.00893915546 :=
      log_bounds_scale_div 0.99110068 (0.00889932) 0.00889932 0 6
        (-0.00893915547) (-0.00893915546) (-0.00893915547) (-0.00893915546)
        (by rw [abs_of_nonneg]; norm_num) (by norm_num) (by norm_num)
        (by norm_num [Finset.sum_range_succ])
        (by norm_num [Finset.sum_range_succ])
        (by norm_num) (by norm_num)
    rw [polylog_neg_two]
    rw [show (0.00889932 : ℝ) + 1 = 1.00889932 by norm_num,
      show (1 : ℝ) - 0.00889932 = 0.99110068 by norm_num]
    rw [abs_lt]
    constructor <;>
      linarith [hz2.1, hz2.2, hp2.1, hp2.2, hm2.1, hm2.2]
  refine ⟨?_, ?_, hv0, hv1, hv2⟩
  · intro z n
    unfold polylog
    rw [if_neg (by norm_num : ¬false = true)]
    rw [neg_neg, Int.toNat_natCast]
  · intro w n
    unfold polylog
    rw [if_pos rfl]
    rw [neg_neg, Int.toNat_natCast]

/-! ### C4 — the Gumbel closed-form estimator -/

/-- The reference 10×3 pseudo-observation matrix of the
`dmle_copula_gumbel` doctest. -/
def refU : Fin 10 → Fin 3 → ℝ :=
  ![![0.72122885, 0.64249391, 0.6771109],
    ![0.48840676, 0.36490127, 0.27721709],
    ![0.63469281, 0.4517949, 0.62365817],
    ![0.87942847, 0.15136347, 0.91851515],
    ![0.34839029, 0.05604025, 0.08416331],
    ![0.48967318, 0.99356872, 0.66912132],
    ![0.60683747, 0.4841944, 0.22833209],
    ![0.30158193, 0.26186022, 0.05502786],
    ![0.51942063, 0.73040326, 0.25935125],
    ![0.46365886, 0.2459, 0.83277053]]

set_option maxHeartbeats 2000000 in
/-- C4: `dmle_copula_gumbel u` is, by construction,
`max (log d / (log n - lsum (-log y))) 1` over the row maxima `y` (with a
NaN from the log-sum step propagating, e.g. when all diagonal values are
`1` so that every `-log y_i = 0`); a successful estimate is therefore
never below `1`; and on the reference 10×3 matrix it returns a value
within `10^{-6}` of `1.5136102146750419`. -/
theorem dmle_gumbel_closed_form :
    (∀ (n d : ℕ) (u : Fin n → Fin d → ℝ),
      dmleCopulaGumbel n d u =
        (lsum (List.ofFn fun i : Fin n =>
          -Real.log (diagCopula n d u i))).map
          (fun l => max (Real.log d / (Real.log n - l)) 1)) ∧
    (∀ (n d : ℕ) (u : Fin n → Fin d → ℝ) (t : ℝ),
      dmleCopulaGumbel n d u = some t → 1 ≤ t) ∧
    (∃ t : ℝ, dmleCopulaGumbel 10 3 refU = some t ∧
      |t - 1.5136102146750419| < 1e-6) := by
  refine ⟨fun n d u => rfl, ?_, ?_⟩
  · intro n d u t h
    unfold dmleCopulaGumbel at h
    cases hls : lsum (List.ofFn fun i : Fin n =>
        -Real.log (diagCopula n d u i)) with
    | none => rw [hls] at h; cases h
    | some l =>
      rw [hls, Option.map_some'] at h
      rw [← Option.some_inj.mp h]
      exact le_max_right _ 1
  ·
    have hd0 : diagCopula 10 3 refU 0 = 0.72122885 := by
      show listMax [refU 0 0, refU 0 1, refU 0 2] = _
      rw [show refU 0 0 = (0.72122885 : ℝ) from rfl,
        show refU 0 1 = (0.64249391 : ℝ) from rfl,
        show refU 0 2 = (0.6771109 : ℝ) from rfl]
      rw [listMax_three, max_eq_left (by norm_num : (0.64249391 : ℝ) ≤ 0.72122885),
        max_eq_left (by norm_num : (0.6771109 : ℝ) ≤ 0.72122885)]
    have hd1 : diagCopula 10 3 refU 1 = 0.48840676 := by
      show listMax [refU 1 0, refU 1 1, refU 1 2] = _
      rw [show refU 1 0 = (0.48840676 : ℝ) from rfl,
        show refU 1 1 = (0.36490127 : ℝ) from rfl,
        show refU 1 2 = (0.27721709 : ℝ) from rfl]
      rw [listMax_three, max_eq_left (by norm_num : (0.36490127 : ℝ) ≤ 0.48840676),
        max_eq_left (by norm_num : (0.27721709 : ℝ) ≤ 0.48840676)]
    have hd2 : diagCopula 10 3 refU 2 = 0.63469281 := by
      show listMax [refU 2 0, refU 2 1, refU 2 2] = _
      rw [show refU 2 0 = (0.63469281 : ℝ) from rfl,
        show refU 2 1 = (0.4517949 : ℝ) from rfl,
        show refU 2 2 = (0.62365817 : ℝ) from rfl]
      rw [listMax_three, max_eq_left (by norm_num : (0.4517949 : ℝ) ≤ 0.63469281),
        max_eq_left (by norm_num : (0.62365817 : ℝ) ≤ 0.63469281)]
    have hd3 : diagCopula 10 3 refU 3 = 0.91851515 := by
      show listMax [refU 3 0, refU 3 1, refU 3 2] = _
      rw [show refU 3 0 = (0.87942847 : ℝ) from rfl,
        show refU 3 1 = (0.15136347 : ℝ) from rfl,
        show refU 3 2 = (0.91851515 : ℝ) from rfl]
      rw [listMax_three, max_eq_left (by norm_num : (0.15136347 : ℝ) ≤ 0.87942847),
        max_eq_right (by norm_num : (0.87942847 : ℝ) ≤ 0.91851515)]
    have hd4 : diagCopula 10 3 refU 4 = 0.34839029 := by
      show listMax [refU 4 0, refU 4 1, refU 4 2] = _
      rw [show refU 4 0 = (0.34839029 : ℝ) from rfl,
        show refU 4 1 = (0.05604025 : ℝ) from rfl,
        show refU 4 2 = (0.08416331 : ℝ) from rfl]
      rw [listMax_three, max_eq_left (by norm_num : (0.05604025 : ℝ) ≤ 0.34839029),
        max_eq_left (by norm_num : (0.08416331 : ℝ) ≤ 0.34839029)]
    have hd5 : diagCopula 10 3 refU 5 = 0.99356872 := by
      show listMax [refU 5 0, refU 5 1, refU 5 2] = _
      rw [show refU 5 0 = (0.48967318 : ℝ) from rfl,
        show refU 5 1 = (0.99356872 : ℝ) from rfl,
        show refU 5 2 = (0.66912132 : ℝ) from rfl]
      rw [listMax_three, max_eq_right (by norm_num : (0.48967318 : ℝ) ≤ 0.99356872),
        max_eq_left (by norm_num : (0.66912132 : ℝ) ≤ 0.99356872)]
    have hd6 : diagCopula 10 3 refU 6 = 0.60683747 := by
      show listMax [refU 6 0, refU 6 1, refU 6 2] = _
      rw [show refU 6 0 = (0.60683747 : ℝ) from rfl,
        show refU 6 1 = (0.4841944 : ℝ) from rfl,
        show refU 6 2 = (0.22833209 : ℝ) from rfl]
      rw [listMax_three, max_eq_left (by norm_num : (0.4841944 : ℝ) ≤ 0.60683747),
        max_eq_left (by norm_num : (0.22833209 : ℝ) ≤ 0.60683747)]
    have hd7 : diagCopula 10 3 refU 7 = 0.30158193 := by
      show listMax [refU 7 0, refU 7 1, refU 7 2] = _
      rw [show refU 7 0 = (0.30158193 : ℝ) from rfl,
        show refU 7 1 = (0.26186022 : ℝ) from rfl,
        show refU 7 2 = (0.05502786 : ℝ) from rfl]
      rw [listMax_three, max_eq_left (by norm_num : (0.26186022 : ℝ) ≤ 0.30158193),
        max_eq_left (by norm_num : (0.05502786 : ℝ) ≤ 0.30158193)]
    have hd8 : diagCopula 10 3 refU 8 = 0.73040326 := by
      show listMax [refU 8 0, refU 8 1, refU 8 2] = _
      rw [show refU 8 0 = (0.51942063 : ℝ) from rfl,
        show refU 8 1 = (0.73040326 : ℝ) from rfl,
        show refU 8 2 = (0.25935125 : ℝ) from rfl]
      rw [listMax_three, max_eq_right (by norm_num : (0.51942063 : ℝ) ≤ 0.73040326),
        max_eq_left (by norm_num : (0.25935125 : ℝ) ≤ 0.73040326)]
    have hd9 : diagCopula 10 3 refU 9 = 0.83277053 := by
      show listMax [refU 9 0, refU 9 1, refU 9 2] = _
      rw [show refU 9 0 = (0.46365886 : ℝ) from rfl,
        show refU 9 1 = (0.2459 : ℝ) from rfl,
        show refU 9 2 = (0.83277053 : ℝ) from rfl]
      rw [listMax_three, max_eq_left (by norm_num : (0.2459 : ℝ) ≤ 0.46365886),
        max_eq_right (by norm_num : (0.46365886 : ℝ) ≤ 0.83277053)]
    have hy0 : (-0.3267987857 : ℝ) ≤ Real.log 0.72122885 ∧
        Real.log (0.72122885 : ℝ) ≤ -0.32679878566 :=
      log_bounds_scale_div 0.72122885 (0.27877115) 0.27877115 0 19
        (-0.3267987857) (-0.32679878566) (-0.3267987857) (-0.32679878566)
        (by rw [abs_of_nonneg] <;> norm_num) (by norm_num) (by norm_num)
        (by norm_num [Finset.sum_range_succ])
        (by norm_num [Finset.sum_range_succ])
        (by norm_num) (by norm_num)
    have hy1 : (-0.71660669598 : ℝ) ≤ Real.log 0.48840676 ∧
        Real.log (0.48840676 : ℝ) ≤ -0.71660669546 :=
      log_bounds_scale_div 0.48840676 (0.02318648) 0.02318648 1 6
        (-0.02345951518) (-0.02345951516) (-0.71660669598) (-0.71660669546)
        (by rw [abs_of_nonneg] <;> norm_num) (by norm_num) (by norm_num)
        (by norm_num [Finset.sum_range_succ])
        (by norm_num [Finset.sum_range_succ])
        (by norm_num) (by norm_num)
    have hy2 : (-0.45461416117 : ℝ) ≤ Real.log 0.63469281 ∧
        Real.log (0.63469281 : ℝ) ≤ -0.45461416065 :=
      log_bounds_scale_div 0.63469281 (-0.26938562) 0.26938562 1 19
        (0.23853301963) (0.23853301965) (-0.45461416117) (-0.45461416065)
        (by rw [abs_of_neg] <;> norm_num) (by norm_num) (by norm_num)
        (by norm_num [Finset.sum_range_succ])
        (by norm_num [Finset.sum_range_succ])
        (by norm_num) (by norm_num)
    have hy3 : (-0.0849968802 : ℝ) ≤ Real.log 0.91851515 ∧
        Real.log (0.91851515 : ℝ) ≤ -0.08499688016 :=
      log_bounds_scale_div 0.91851515 (0.08148485) 0.08148485 0 9
        (-0.0849968802) (-0.08499688016) (-0.0849968802) (-0.08499688016)
        (by rw [abs_of_nonneg] <;> norm_num) (by norm_num) (by norm_num)
        (by norm_num [Finset.sum_range_succ])
        (by norm_num [Finset.sum_range_succ])
        (by norm_num) (by norm_num)
    have hy4 : (-1.0544319049 : ℝ) ≤ Real.log 0.34839029 ∧
        Real.log (0.34839029 : ℝ) ≤ -1.05443190439 :=
      log_bounds_scale_div 0.34839029 (0.30321942) 0.30321942 1 22
        (-0.3612847241) (-0.36128472409) (-1.0544319049) (-1.05443190439)
        (by rw [abs_of_nonneg] <;> norm_num) (by norm_num) (by norm_num)
        (by norm_num [Finset.sum_range_succ])
        (by norm_num [Finset.sum_range_succ])
        (by norm_num) (by norm_num)
    have hy5 : (-0.00645204979 : ℝ) ≤ Real.log 0.99356872 ∧
        Real.log (0.99356872 : ℝ) ≤ -0.00645204977 :=
      log_bounds_scale_div 0.99356872 (0.00643128) 0.00643128 0 5
        (-0.00645204979) (-0.00645204977) (-0.00645204979) (-0.00645204977)
        (by rw [abs_of_nonneg] <;> norm_num) (by norm_num) (by norm_num)
        (by norm_num [Finset.sum_range_succ])
        (by norm_num [Finset.sum_range_succ])
        (by norm_num) (by norm_num)
    have hy6 : (-0.4994942835 : ℝ) ≤ Real.log 0.60683747 ∧
        Real.log (0.60683747 : ℝ) ≤ -0.49949428298 :=
      log_bounds_scale_div 0.60683747 (-0.21367494) 0.21367494 1 16
        (0.1936528973) (0.19365289732) (-0.4994942835) (-0.49949428298)
        (by rw [abs_of_neg] <;> norm_num) (by norm_num) (by norm_num)
        (by norm_num [Finset.sum_range_succ])
        (by norm_num [Finset.sum_range_succ])
        (by norm_num) (by norm_num)
    have hy7 : (-1.19871355892 : ℝ) ≤ Real.log 0.30158193 ∧
        Real.log (0.30158193 : ℝ) ≤ -1.19871355791 :=
      log_bounds_scale_div 0.30158193 (-0.20632772) 0.20632772 2 16
        (0.18758080268) (0.18758080269) (-1.19871355892) (-1.19871355791)
        (by rw [abs_of_neg] <;> norm_num) (by norm_num) (by norm_num)
        (by norm_num [Finset.sum_range_succ])
        (by norm_num [Finset.sum_range_succ])
        (by norm_num) (by norm_num)
    have hy8 : (-0.31415848641 : ℝ) ≤ Real.log 0.73040326 ∧
        Real.log (0.73040326 : ℝ) ≤ -0.31415848639 :=
      log_bounds_scale_div 0.73040326 (0.26959674) 0.26959674 0 19
        (-0.31415848641) (-0.31415848639) (-0.31415848641) (-0.31415848639)
        (by rw [abs_of_nonneg] <;> norm_num) (by norm_num) (by norm_num)
        (by norm_num [Finset.sum_range_succ])
        (by norm_num [Finset.sum_range_succ])
        (by norm_num) (by norm_num)
    have hy9 : (-0.18299714896 : ℝ) ≤ Real.log 0.83277053 ∧
        Real.log (0.83277053 : ℝ) ≤ -0.18299714895 :=
      log_bounds_scale_div 0.83277053 (0.16722947) 0.16722947 0 14
        (-0.18299714896) (-0.18299714895) (-0.18299714896) (-0.18299714895)
        (by rw [abs_of_nonneg] <;> norm_num) (by norm_num) (by norm_num)
        (by norm_num [Finset.sum_range_succ])
        (by norm_num [Finset.sum_range_succ])
        (by norm_num) (by norm_num)
    have hofn : (List.ofFn fun i : Fin 10 =>
        -Real.log (diagCopula 10 3 refU i)) =
        [-Real.log (0.72122885 : ℝ), -Real.log 0.48840676, -Real.log 0.63469281,
       -Real.log 0.91851515, -Real.log 0.34839029, -Real.log 0.99356872,
       -Real.log 0.60683747, -Real.log 0.30158193, -Real.log 0.73040326,
       -Real.log 0.83277053] := by
      show [-Real.log (diagCopula 10 3 refU 0), -Real.log (diagCopula 10 3 refU 1),
        -Real.log (diagCopula 10 3 refU 2), -Real.log (diagCopula 10 3 refU 3),
        -Real.log (diagCopula 10 3 refU 4), -Real.log (diagCopula 10 3 refU 5),
        -Real.log (diagCopula 10 3 refU 6), -Real.log (diagCopula 10 3 refU 7),
        -Real.log (diagCopula 10 3 refU 8), -Real.log (diagCopula 10 3 refU 9)] = _
      rw [hd0, hd1, hd2, hd3, hd4, hd5, hd6, hd7, hd8, hd9]
    have hnn : ∀ x ∈ [-Real.log (0.72122885 : ℝ), -Real.log 0.48840676, -Real.log 0.63469281,
       -Real.log 0.91851515, -Real.log 0.34839029, -Real.log 0.99356872,
       -Real.log 0.60683747, -Real.log 0.30158193, -Real.log 0.73040326,
       -Real.log 0.83277053], (0 : ℝ) ≤ x := by
      intro x hx
      simp only [List.mem_cons, List.not_mem_nil, or_false] at hx
      rcases hx with rfl|rfl|rfl|rfl|rfl|rfl|rfl|rfl|rfl|rfl <;>
        linarith [hy0.2, hy1.2, hy2.2, hy3.2, hy4.2, hy5.2, hy6.2, hy7.2,
          hy8.2, hy9.2]
    have hex : ∃ x ∈ [-Real.log (0.72122885 : ℝ), -Real.log 0.48840676, -Real.log 0.63469281,
       -Real.log 0.91851515, -Real.log 0.34839029, -Real.log 0.99356872,
       -Real.log 0.60683747, -Real.log 0.30158193, -Real.log 0.73040326,
       -Real.log 0.83277053], (0 : ℝ) < x :=
      ⟨-Real.log 0.72122885, by simp, by linarith [hy0.2]⟩
    have hlsum := lsum_eq_log_sum hnn hex
    have hTb : (4.839263952 : ℝ) ≤ ([-Real.log (0.72122885 : ℝ), -Real.log 0.48840676, -Real.log 0.63469281,
       -Real.log 0.91851515, -Real.log 0.34839029, -Real.log 0.99356872,
       -Real.log 0.60683747, -Real.log 0.30158193, -Real.log 0.73040326,
       -Real.log 0.83277053]).sum ∧
        ([-Real.log (0.72122885 : ℝ), -Real.log 0.48840676, -Real.log 0.63469281,
       -Real.log 0.91851515, -Real.log 0.34839029, -Real.log 0.99356872,
       -Real.log 0.60683747, -Real.log 0.30158193, -Real.log 0.73040326,
       -Real.log 0.83277053]).sum ≤ 4.839263956 := by
      constructor <;>
        (simp only [List.sum_cons, List.sum_nil]
         linarith [hy0.1, hy0.2, hy1.1, hy1.2, hy2.1, hy2.2, hy3.1, hy3.2,
           hy4.1, hy4.2, hy5.1, hy5.2, hy6.1, hy6.2, hy7.1, hy7.2,
           hy8.1, hy8.2, hy9.1, hy9.2])
    have hTpos : (0 : ℝ) < ([-Real.log (0.72122885 : ℝ), -Real.log 0.48840676, -Real.log 0.63469281,
       -Real.log 0.91851515, -Real.log 0.34839029, -Real.log 0.99356872,
       -Real.log 0.60683747, -Real.log 0.30158193, -Real.log 0.73040326,
       -Real.log 0.83277053]).sum := lt_of_lt_of_le (by norm_num) hTb.1
    have hTL : (1.57676263261 : ℝ) ≤ Real.log 4.839263952 ∧
        Real.log (4.839263952 : ℝ) ≤ 1.57676263362 :=
      log_bounds_scale_mul 4.839263952 (-0.209815988) 0.209815988 2 18
        (0.19046827201) (0.19046827202) (1.57676263261) (1.57676263362)
        (by rw [abs_of_neg] <;> norm_num) (by norm_num) (by norm_num)
        (by norm_num [Finset.sum_range_succ])
        (by norm_num [Finset.sum_range_succ])
        (by norm_num) (by norm_num)
    have hTH : (1.57676263343 : ℝ) ≤ Real.log 4.839263956 ∧
        Real.log (4.839263956 : ℝ) ≤ 1.57676263444 :=
      log_bounds_scale_mul 4.839263956 (-0.209815989) 0.209815989 2 18
        (0.19046827283) (0.19046827284) (1.57676263343) (1.57676263444)
        (by rw [abs_of_neg] <;> norm_num) (by norm_num) (by norm_num)
        (by norm_num [Finset.sum_range_succ])
        (by norm_num [Finset.sum_range_succ])
        (by norm_num) (by norm_num)
    have hl3 : (1.09861228814 : ℝ) ≤ Real.log 3 ∧
        Real.log (3 : ℝ) ≤ 1.09861228915 :=
      log_bounds_scale_mul 3 (0.25) 0.25 2 20
        (-0.28768207246) (-0.28768207245) (1.09861228814) (1.09861228915)
        (by rw [abs_of_nonneg] <;> norm_num) (by norm_num) (by norm_num)
        (by norm_num [Finset.sum_range_succ])
        (by norm_num [Finset.sum_range_succ])
        (by norm_num) (by norm_num)
    have hl10 : (2.30258509221 : ℝ) ≤ Real.log 10 ∧
        Real.log (10 : ℝ) ≤ 2.30258509372 :=
      log_bounds_scale_mul 10 (-0.25) 0.25 3 20
        (0.22314355131) (0.22314355132) (2.30258509221) (2.30258509372)
        (by rw [abs_of_neg] <;> norm_num) (by norm_num) (by norm_num)
        (by norm_num [Finset.sum_range_succ])
        (by norm_num [Finset.sum_range_succ])
        (by norm_num) (by norm_num)
    have hlogT1 : Real.log 4.839263952 ≤ Real.log (([-Real.log (0.72122885 : ℝ), -Real.log 0.48840676, -Real.log 0.63469281,
       -Real.log 0.91851515, -Real.log 0.34839029, -Real.log 0.99356872,
       -Real.log 0.60683747, -Real.log 0.30158193, -Real.log 0.73040326,
       -Real.log 0.83277053]).sum) :=
      (Real.log_le_log_iff (by norm_num) hTpos).mpr hTb.1
    have hlogT2 : Real.log (([-Real.log (0.72122885 : ℝ), -Real.log 0.48840676, -Real.log 0.63469281,
       -Real.log 0.91851515, -Real.log 0.34839029, -Real.log 0.99356872,
       -Real.log 0.60683747, -Real.log 0.30158193, -Real.log 0.73040326,
       -Real.log 0.83277053]).sum) ≤ Real.log 4.839263956 :=
      (Real.log_le_log_iff hTpos (by norm_num)).mpr hTb.2
    have hD1 : (0.72582245777 : ℝ) ≤
        Real.log 10 - Real.log (([-Real.log (0.72122885 : ℝ), -Real.log 0.48840676, -Real.log 0.63469281,
       -Real.log 0.91851515, -Real.log 0.34839029, -Real.log 0.99356872,
       -Real.log 0.60683747, -Real.log 0.30158193, -Real.log 0.73040326,
       -Real.log 0.83277053]).sum) := by
      linarith [hl10.1, hTH.2, hlogT2]
    have hD2 : Real.log 10 - Real.log (([-Real.log (0.72122885 : ℝ), -Real.log 0.48840676, -Real.log 0.63469281,
       -Real.log 0.91851515, -Real.log 0.34839029, -Real.log 0.99356872,
       -Real.log 0.60683747, -Real.log 0.30158193, -Real.log 0.73040326,
       -Real.log 0.83277053]).sum) ≤ 0.72582246111 := by
      linarith [hl10.2, hTL.1, hlogT1]
    have ht_up : Real.log 3 / (Real.log 10 - Real.log (([-Real.log (0.72122885 : ℝ), -Real.log 0.48840676, -Real.log 0.63469281,
       -Real.log 0.91851515, -Real.log 0.34839029, -Real.log 0.99356872,
       -Real.log 0.60683747, -Real.log 0.30158193, -Real.log 0.73040326,
       -Real.log 0.83277053]).sum)) ≤
        1.09861228915 / 0.72582245777 :=
      div_le_div₀ (by norm_num) hl3.2 (by norm_num) hD1
    have ht_lo : (1.09861228814 : ℝ) / 0.72582246111 ≤
        Real.log 3 / (Real.log 10 - Real.log (([-Real.log (0.72122885 : ℝ), -Real.log 0.48840676, -Real.log 0.63469281,
       -Real.log 0.91851515, -Real.log 0.34839029, -Real.log 0.99356872,
       -Real.log 0.60683747, -Real.log 0.30158193, -Real.log 0.73040326,
       -Real.log 0.83277053]).sum)) :=
      div_le_div₀ (by linarith [hl3.1]) hl3.1 (by linarith [hD1]) hD2
    have hone : (1 : ℝ) ≤
        Real.log 3 / (Real.log 10 - Real.log (([-Real.log (0.72122885 : ℝ), -Real.log 0.48840676, -Real.log 0.63469281,
       -Real.log 0.91851515, -Real.log 0.34839029, -Real.log 0.99356872,
       -Real.log 0.60683747, -Real.log 0.30158193, -Real.log 0.73040326,
       -Real.log 0.83277053]).sum)) := by
      have : (1 : ℝ) < 1.09861228814 / 0.72582246111 := by norm_num
      linarith
    refine ⟨Real.log 3 / (Real.log 10 - Real.log (([-Real.log (0.72122885 : ℝ), -Real.log 0.48840676, -Real.log 0.63469281,
       -Real.log 0.91851515, -Real.log 0.34839029, -Real.log 0.99356872,
       -Real.log 0.60683747, -Real.log 0.30158193, -Real.log 0.73040326,
       -Real.log 0.83277053]).sum)), ?_, ?_⟩
    · unfold dmleCopulaGumbel
      rw [hofn, hlsum, Option.map_some']
      rw [show ((3 : ℕ) : ℝ) = (3 : ℝ) by norm_num,
        show ((10 : ℕ) : ℝ) = (10 : ℝ) by norm_num]
      rw [max_eq_left hone]
    · rw [abs_lt]
      have h1 : (1.09861228915 : ℝ) / 0.72582245777 < 1.5136102146750419 + 1e-6 := by
        norm_num
      have h2 : (1.5136102146750419 - 1e-6 : ℝ) < 1.09861228814 / 0.72582246111 := by
        norm_num
      constructor <;> linarith


/-- C4 witness: the never-below-1 clause applied to a concrete 2×1 matrix
(the estimate there is `max (log 1 / (log 2 - log (2 log 2))) 1 = 1`). -/
theorem dmle_gumbel_closed_form_witness :
    1 ≤ max (Real.log ((1 : ℕ) : ℝ) / (Real.log ((2 : ℕ) : ℝ) -
      Real.log ([-Real.log ((1 : ℝ) / 2), -Real.log ((1 : ℝ) / 2)]).sum)) 1 := by
  apply dmle_gumbel_closed_form.2.1 2 1 (![![(1 : ℝ) / 2], ![(1 : ℝ) / 2]])
  have hpos : (0 : ℝ) < -Real.log ((1 : ℝ) / 2) := by
    have := Real.log_neg (by norm_num : (0 : ℝ) < 1 / 2) (by norm_num)
    linarith
  have hofn : (List.ofFn fun i : Fin 2 =>
      -Real.log (diagCopula 2 1 (![![(1 : ℝ) / 2], ![(1 : ℝ) / 2]]) i)) =
      [-Real.log ((1 : ℝ) / 2), -Real.log ((1 : ℝ) / 2)] := by
    show [-Real.log (diagCopula 2 1 (![![(1 : ℝ) / 2], ![(1 : ℝ) / 2]]) 0),
      -Real.log (diagCopula 2 1 (![![(1 : ℝ) / 2], ![(1 : ℝ) / 2]]) 1)] = _
    rw [show diagCopula 2 1 (![![(1 : ℝ) / 2], ![(1 : ℝ) / 2]]) 0
        = (1 : ℝ) / 2 from rfl,
      show diagCopula 2 1 (![![(1 : ℝ) / 2], ![(1 : ℝ) / 2]]) 1
        = (1 : ℝ) / 2 from rfl]
  unfold dmleCopulaGumbel
  rw [hofn, lsum_eq_log_sum (by
    intro x hx
    simp only [List.mem_cons, List.not_mem_nil, or_false] at hx
    rcases hx with rfl | rfl <;> exact hpos.le)
    ⟨-Real.log ((1 : ℝ) / 2), by simp, hpos⟩, Option.map_some']

/-! ### C9 — Eulerian numbers -/

/-- C9: `eulerian`/`eulerian_all` compute the Eulerian triangle by the
recurrence `A(i,0) = 1` for `i > 0`, `A(i,j) = (i-j)·A(i-1,j-1) +
(j+1)·A(i-1,j)` for `0 < j < i`, `A(i,j) = 0` for `j ≥ i`; and
`eulerian_all 10` is exactly
`[1, 1013, 47840, 455192, 1310354, 1310354, 455192, 47840, 1013, 1]`. -/
theorem eulerian_recurrence_and_row10 :
    (∀ i : ℕ, 0 < i → eulerian i 0 = 1) ∧
    (∀ i j : ℕ, 0 < j → j < i →
      eulerian i j =
        (i - j) * eulerian (i - 1) (j - 1) + (j + 1) * eulerian (i - 1) j) ∧
    (∀ i j : ℕ, i ≤ j → eulerian i j = 0) ∧
    eulerianAll 10 =
      [1, 1013, 47840, 455192, 1310354, 1310354, 455192, 47840, 1013, 1] := by
  refine ⟨?_, ?_, ?_, by decide⟩
  · intro i hi
    cases i with
    | zero => cases hi
    | succ i => rfl
  · intro i j hj hji
    cases i with
    | zero => omega
    | succ i =>
      cases j with
      | zero => cases hj
      | succ j =>
        simp only [eulerian, if_pos hji, Nat.add_sub_cancel, Nat.succ_sub_one]
  · intro i j hij
    cases i with
    | zero => rfl
    | succ i =>
      cases j with
      | zero => omega
      | succ j => simp only [eulerian, if_neg (by omega : ¬j + 1 < i + 1)]

/-! ### C6 — `log_sum` -/

/-- C6 (amended): `lsum` returns `log (Σ x_i)` for every vector of
nonnegative reals having at least one positive entry — zero entries are
silently dropped (`exp (log 0 - x_max) = 0`), they do not raise; negative
entries yield NaN, also without raising. -/
theorem lsum_log_of_sum (l : List ℝ) (h0 : ∀ x ∈ l, 0 ≤ x)
    (hp : ∃ x ∈ l, 0 < x) : lsum l = some (Real.log l.sum) :=
  lsum_eq_log_sum h0 hp

/-- C6 witness: a strictly positive vector. -/
theorem lsum_log_of_sum_witness : lsum [1, 2] = some (Real.log 3) := by
  have h := lsum_log_of_sum [1, 2] (by norm_num) ⟨1, by norm_num⟩
  rw [show ([(1 : ℝ), 2]).sum = 3 by norm_num] at h
  exact h

/-- C6 counterexample: on `[0, 2]`, whose first entry is `≤ 0`, `lsum`
does not fail with a DomainError — it returns the ordinary value
`log 2` (the zero entry underflows out of the rescaled sum). -/
theorem lsum_zero_entry_no_error : lsum [0, 2] = some (Real.log 2) := by
  have h := lsum_eq_log_sum (l := [0, 2]) (by norm_num) ⟨2, by norm_num⟩
  simpa using h

/-! ### C1 — `log_signed_sum` -/

/-- C1: `lssum` does not add each term with that term's sign: the sign it
uses is the sign of the sorted log-magnitude `b_i` (`+` iff `|x_i| ≥ 1`).
On `[-2, 3]`, whose true sum is `1`, it returns `log 5 ≠ log |Σ x_i| = 0`:
both entries have magnitude `≥ 1`, so `-2` is *added*. -/
theorem lssum_sign_convention_bug :
    lssum [-2, 3] = some (Real.log 5) ∧
    Real.log |(-2 : ℝ) + 3| = 0 ∧ Real.log 5 ≠ 0 := by
  refine ⟨?_, by norm_num, (Real.log_pos (by norm_num)).ne'⟩
  have h2 : (0 : ℝ) ≤ Real.log 2 := Real.log_nonneg (by norm_num)
  have h3 : (0 : ℝ) ≤ Real.log 3 := Real.log_nonneg (by norm_num)
  have e2 : Real.exp (Real.log 2 - Real.log 3) = 2 / 3 := by
    rw [Real.exp_sub, Real.exp_log (by norm_num : (0:ℝ) < 2),
      Real.exp_log (by norm_num : (0:ℝ) < 3)]
  have e3 : Real.exp (Real.log 3 - Real.log 3) = 1 := by
    rw [sub_self, Real.exp_zero]
  have hm3 : listMax [(2 : ℝ), 3] = 3 := by
    show List.foldl max 2 [3] = 3
    simp only [List.foldl]
    exact max_eq_right (by norm_num)
  unfold lssum
  simp only [List.map, List.sum_cons, List.sum_nil]
  rw [abs_of_nonpos (by norm_num : (-2 : ℝ) ≤ 0),
    abs_of_nonneg (by norm_num : (0 : ℝ) ≤ 3)]
  simp only [neg_neg]
  rw [hm3]
  rw [if_neg (by norm_num : ¬(-2 : ℝ) = 0), if_neg (by norm_num : ¬(3 : ℝ) = 0)]
  rw [if_pos h2, if_pos h3, e2, e3]
  norm_num
  rw [← Real.log_mul (by norm_num) (by norm_num)]
  norm_num

/-! ### C7 — estimator constraints -/

/-- C7: the first inequality constraint `dmle_copula_clayton` passes to
the optimiser is the *constant* `1e-14` (not `x - 1e-14` as in the Frank
estimator), so the Clayton constraint set does not match `θ ∈ (0, 1000)`:
`θ = -5` satisfies every Clayton constraint.  The Frank constraints do cut
out a box, and `max_diag_pdf` maps optimiser failure to `none` (NaN)
rather than raising. -/
theorem clayton_constraint_vacuous :
    feasibleFor claytonConstraints (-5) ∧
    (-5 : ℝ) ∉ Set.Ioo (0 : ℝ) 1000 ∧
    (∀ r : OptResult, r.success = false → maxDiagPdf r = none) ∧
    (∀ θ : ℝ, feasibleFor franckConstraints θ ↔ 1e-14 ≤ θ ∧ θ ≤ 745) := by
  refine ⟨?_, ?_, ?_, ?_⟩
  · intro c hc
    simp only [claytonConstraints, List.mem_cons, List.mem_singleton] at hc
    rcases hc with h | h | h
    · subst h; norm_num
    · subst h; norm_num
    · cases h
  · simp [Set.mem_Ioo]
  · intro r hr
    simp [maxDiagPdf, hr]
  · intro θ
    constructor
    · intro h
      have h1 := h (fun x => x - 1e-14) (by simp [franckConstraints])
      have h2 := h (fun x => 745 - x) (by simp [franckConstraints])
      simp only [] at h1 h2
      constructor
      · linarith
      · linarith
    · rintro ⟨h1, h2⟩ c hc
      simp only [franckConstraints, List.mem_cons, List.mem_singleton] at hc
      rcases hc with h | h | h
      · subst h; simp; linarith
      · subst h; simp; linarith
      · cases h

/-- C7 witness: a failed optimisation is reported as `none`. -/
theorem clayton_constraint_vacuous_witness :
    maxDiagPdf ⟨false, 0⟩ = none :=
  clayton_constraint_vacuous.2.2.1 ⟨false, 0⟩ rfl

/-! ### C5 — log-space `ipsi` variants -/

/-- C5 (supporting fact): for Clayton and Frank the `is_log` variant is
definitionally the `log` of the natural-scale value — the natural-scale
intermediate is always formed first (hence overflows first in floating
point); only the Gumbel variant computes in log scale directly. -/
theorem ipsi_log_variants_structure :
    (∀ x θ : ℝ, ipsiClayton x θ true = Real.log (ipsiClayton x θ false)) ∧
    (∀ x θ : ℝ, ipsiFrank x θ true = Real.log (ipsiFrank x θ false)) ∧
    (∀ x θ : ℝ, ipsiGumbel x θ true = θ * Real.log (-Real.log x)) :=
  ⟨fun _ _ => rfl, fun _ _ => rfl, fun _ _ => rfl⟩

/-- C9 witness: the recurrence clauses at concrete indices. -/
theorem eulerian_recurrence_witness :
    eulerian 3 0 = 1 ∧
    eulerian 4 2 = (4 - 2) * eulerian 3 1 + 3 * eulerian 3 2 ∧
    eulerian 2 5 = 0 :=
  ⟨eulerian_recurrence_and_row10.1 3 (by decide),
   eulerian_recurrence_and_row10.2.1 4 2 (by decide) (by decide),
   eulerian_recurrence_and_row10.2.2.1 2 5 (by decide)⟩

end Midr

end
